import Mathlib

/-!
Verification of the `domain` package of azusaanson/invest-api: value-object
validators (UserID, UserName, UserRole, HashedPassword, Password), the User
aggregate constructors (NewUser, NewUserFromSource), and the bcrypt-backed
password hashing and verification.

Go strings are modelled as Lean `String` (a sequence of Unicode code points;
Go's `len([]rune(v))` is `String.length`), Go `[]byte` as `List Nat` (byte
values), `uint64` as `Nat` (no arithmetic is performed on identifiers), and
the `(value, error)` return convention as `Except GoErr`.
-/

deriving instance DecidableEq for Except

namespace Domain

/-- The sentinel error values declared by the package, one constructor per
`errors.New`/`fmt.Errorf` variable, plus the errors of the external bcrypt
library that `Verify` can observe. -/
inductive DomainErr where
  | userIDZero
  | userNameEmpty
  | userNameTooLong
  | hashedPasswordEmpty
  | hashedPasswordNotMatch
  | userRoleInvalid
  | passwordEmpty
  | passwordTooShort
  | passwordTooLong
  | passwordDoesNotFollowRule
  | bcryptMismatchedHashAndPassword
  | bcryptPasswordTooLong
  | bcryptHashTooShort
  deriving DecidableEq, Repr

/-- Error values as built by github.com/pkg/errors: a sentinel (`base`), a
stack-annotated error (`errors.WithStack`), or a message-annotated error
(`errors.Wrap`, whose cause is the wrapped error). -/
inductive GoErr where
  | base (e : DomainErr)
  | withStack (cause : GoErr)
  | wrap (msg : String) (cause : GoErr)
  deriving DecidableEq, Repr

/-- `errors.Is(err, target)` for a sentinel target: unwraps the cause chain
that `WithStack` and `Wrap` build and compares with the sentinel. -/
def GoErr.is : GoErr → DomainErr → Bool
  | .base e, target => e == target
  | .withStack cause, target => cause.is target
  | .wrap _ cause, target => cause.is target

abbrev UserID := Nat

abbrev UserName := String

abbrev HashedPassword := List Nat

abbrev UserRole := String

abbrev Password := String

/-- The User aggregate: four value-object fields. -/
structure User where
  id : UserID
  name : UserName
  hashedPassword : HashedPassword
  role : UserRole
  deriving DecidableEq, Repr

def RoleUser : UserRole := "user"

def RoleAdmin : UserRole := "admin"

def UserNameMaxLength : Nat := 32

def PasswordMinLength : Nat := 8

def PasswordMaxLength : Nat := 16

def PasswordHashCost : Nat := 10

/-- `NewUserID`: rejects zero, otherwise returns the value unchanged.
The source returns the sentinel `ErrUserIDZero` bare (no WithStack). -/
def NewUserID (v : Nat) : Except GoErr UserID :=
  if v = 0 then .error (.base .userIDZero) else .ok v

/-- `NewUserName`: rejects the empty string and names longer than 32 code
points (`len([]rune(v)) > UserNameMaxLength`); otherwise returns the string
unchanged. Errors carry `errors.WithStack`. -/
def NewUserName (v : String) : Except GoErr UserName :=
  if v = "" then .error (.withStack (.base .userNameEmpty))
  else if UserNameMaxLength < v.length then .error (.withStack (.base .userNameTooLong))
  else .ok v

/-- UTF-8 encoding of one code point, byte by byte, as Go's `[]byte(string)`
conversion produces for valid text. -/
def charUTF8 (c : Char) : List Nat :=
  if c.toNat < 0x80 then [c.toNat]
  else if c.toNat < 0x800 then
    [0xC0 + c.toNat / 0x40, 0x80 + c.toNat % 0x40]
  else if c.toNat < 0x10000 then
    [0xE0 + c.toNat / 0x1000, 0x80 + c.toNat / 0x40 % 0x40, 0x80 + c.toNat % 0x40]
  else
    [0xF0 + c.toNat / 0x40000, 0x80 + c.toNat / 0x1000 % 0x40,
      0x80 + c.toNat / 0x40 % 0x40, 0x80 + c.toNat % 0x40]

/-- Go's `[]byte(v)` on a string: the UTF-8 bytes of its code points. -/
def goBytes (v : String) : List Nat :=
  (v.data.map charUTF8).flatten

/-- `NewHashedPassword`: rejects the empty string, otherwise wraps the bytes
opaquely (`HashedPassword(v)` is Go's string-to-bytes conversion). -/
def NewHashedPassword (v : String) : Except GoErr HashedPassword :=
  if v = "" then .error (.withStack (.base .hashedPasswordEmpty))
  else .ok (goBytes v)

/-- `NewUserRole`: exact switch on "user" / "admin"; anything else is
`ErrUserRoleInvalid` with a stack annotation. -/
def NewUserRole (v : String) : Except GoErr UserRole :=
  if v = RoleUser then .ok RoleUser
  else if v = RoleAdmin then .ok RoleAdmin
  else .error (.withStack (.base .userRoleInvalid))

/-- `NewUser`: assembles a fresh aggregate from already-validated values; the
id field is left at its zero value and no validation is performed. -/
def NewUser (name : UserName) (hashedPassword : HashedPassword) (role : UserRole) :
    Except GoErr User :=
  .ok { id := 0, name := name, hashedPassword := hashedPassword, role := role }

/-- `NewUserFromSource`: runs the four validators in order (id, name, hashed
password, role), returning the first failure wrapped with `errors.WithStack`;
on success builds the aggregate from the four validated values. -/
def NewUserFromSource (id : Nat) (name hashedPassword role : String) :
    Except GoErr User :=
  match NewUserID id with
  | .error err => .error (.withStack err)
  | .ok newID =>
    match NewUserName name with
    | .error err => .error (.withStack err)
    | .ok newName =>
      match NewHashedPassword hashedPassword with
      | .error err => .error (.withStack err)
      | .ok newHashedPassword =>
        match NewUserRole role with
        | .error err => .error (.withStack err)
        | .ok newRole =>
          .ok { id := newID, name := newName,
                hashedPassword := newHashedPassword, role := newRole }

/-- The character class of the compiled pattern `PasswordCharcters` (an
anchored one-or-more repetition of one bracket class), range by range in
source order: digits 0x30-0x39, lowercase 0x61-0x7A, uppercase 0x41-0x5A,
then the four punctuation runs 0x21-0x2F, 0x3A-0x40, 0x5B-0x60, 0x7B-0x7E. -/
def passwordCharctersClass (c : Char) : Bool :=
  (0x30 ≤ c.toNat && c.toNat ≤ 0x39) ||
  (0x61 ≤ c.toNat && c.toNat ≤ 0x7A) ||
  (0x41 ≤ c.toNat && c.toNat ≤ 0x5A) ||
  (0x21 ≤ c.toNat && c.toNat ≤ 0x2F) ||
  (0x3A ≤ c.toNat && c.toNat ≤ 0x40) ||
  (0x5B ≤ c.toNat && c.toNat ≤ 0x60) ||
  (0x7B ≤ c.toNat && c.toNat ≤ 0x7E)

/-- `PasswordCharcters.MatchString v` for the anchored pattern
`^[class]+$`: true exactly when `v` is a non-empty sequence of code points
all inside the class. -/
def passwordCharctersMatchString (v : String) : Bool :=
  !v.isEmpty && v.data.all passwordCharctersClass

/-- The class of `[[:alpha:]]` (ASCII in Go's regexp): 0x41-0x5A, 0x61-0x7A. -/
def alphaClass (c : Char) : Bool :=
  (0x41 ≤ c.toNat && c.toNat ≤ 0x5A) || (0x61 ≤ c.toNat && c.toNat ≤ 0x7A)

/-- The class of `[[:digit:]]`: 0x30-0x39. -/
def digitClass (c : Char) : Bool :=
  0x30 ≤ c.toNat && c.toNat ≤ 0x39

/-- The class of `[[:punct:]]`: 0x21-0x2F, 0x3A-0x40, 0x5B-0x60, 0x7B-0x7E. -/
def punctClass (c : Char) : Bool :=
  (0x21 ≤ c.toNat && c.toNat ≤ 0x2F) ||
  (0x3A ≤ c.toNat && c.toNat ≤ 0x40) ||
  (0x5B ≤ c.toNat && c.toNat ≤ 0x60) ||
  (0x7B ≤ c.toNat && c.toNat ≤ 0x7E)

/-- `re.FindString(v) != ""` for a single-character-class pattern `re`: some
code point of `v` is in the class (a one-character match is never empty). -/
def findStringHit (cls : Char → Bool) (v : String) : Bool :=
  v.data.any cls

/-- `NewPassword`: empty, then too-short (`len([]rune(v)) < 8`), then too-long
(`16 < len([]rune(v))`), then the `PasswordCharcters` full match, then the
`PasswordMustIncludes` loop unrolled in its source order alpha, digit, punct;
the first violated check returns its error (policy violations share
`ErrPasswordDoesNotFollowRule`), all under `errors.WithStack`. -/
def NewPassword (v : String) : Except GoErr Password :=
  if v = "" then .error (.withStack (.base .passwordEmpty))
  else if v.length < PasswordMinLength then .error (.withStack (.base .passwordTooShort))
  else if PasswordMaxLength < v.length then .error (.withStack (.base .passwordTooLong))
  else if !passwordCharctersMatchString v then
    .error (.withStack (.base .passwordDoesNotFollowRule))
  else if !findStringHit alphaClass v then
    .error (.withStack (.base .passwordDoesNotFollowRule))
  else if !findStringHit digitClass v then
    .error (.withStack (.base .passwordDoesNotFollowRule))
  else if !findStringHit punctClass v then
    .error (.withStack (.base .passwordDoesNotFollowRule))
  else .ok v

/-- Modelled from the spec: `bcrypt.GenerateFromPassword` belongs to the
external x/crypto library, not to this repository. Per the spec the transform
is a salted one-way digest, deterministic in (cost, salt, key) and free of
collisions for distinct keys within bcrypt's 72-byte key limit; the salt is
drawn fresh on every call by the caller's runtime, which this embedding makes
explicit as an argument. The digest is modelled as the decodable record
`cost :: salt :: key` — injective in the key exactly as the spec's
"corresponds to the stored hash" wording requires; keys longer than 72 bytes
are rejected, as the library rejects them. -/
def bcryptGenerateFromPassword (password : List Nat) (cost : Nat) (salt : Nat) :
    Except GoErr (List Nat) :=
  if 72 < password.length then .error (.base .bcryptPasswordTooLong)
  else .ok (cost :: salt :: password)

/-- Modelled from the spec: `bcrypt.CompareHashAndPassword` (external library)
decodes the stored hash into its cost, salt and digest, recomputes the digest
of the supplied password under the same cost and salt, and succeeds exactly
when the two coincide; an undecodable hash or an over-long password is an
error distinct from the mismatch sentinel. -/
def bcryptCompareHashAndPassword (hashedPassword password : List Nat) :
    Except GoErr Unit :=
  match hashedPassword with
  | cost :: salt :: digest =>
    match bcryptGenerateFromPassword password cost salt with
    | .error e => .error e
    | .ok other =>
      if other = cost :: salt :: digest then .ok ()
      else .error (.base .bcryptMismatchedHashAndPassword)
  | _ => .error (.base .bcryptHashTooShort)

/-- `err.Error()` of the bcrypt library errors, used as the message that
`HashedPassword.Verify` passes to `errors.Wrap`. -/
def goErrMessage : GoErr → String
  | .base .bcryptMismatchedHashAndPassword =>
    "crypto/bcrypt: hashedPassword is not the hash of the given password"
  | .base .bcryptPasswordTooLong =>
    "bcrypt: password length exceeds 72 bytes"
  | .base .bcryptHashTooShort =>
    "crypto/bcrypt: hashedSecret too short to be a bcrypted password"
  | _ => ""

/-- `Password.Hash`: calls the bcrypt generator at `PasswordHashCost` and
discards the error (`hashed, _ := ...`), so a failed generation yields the
nil byte slice. The salt the library draws internally is the explicit
argument. -/
def Password.Hash (v : Password) (salt : Nat) : HashedPassword :=
  match bcryptGenerateFromPassword (goBytes v) PasswordHashCost salt with
  | .ok hashed => hashed
  | .error _ => []

/-- `HashedPassword.Verify`: delegates to the bcrypt comparison and, on any
failure, wraps `ErrHashedPasswordNotMatch` with the underlying message
(`errors.Wrap(ErrHashedPasswordNotMatch, err.Error())`). -/
def HashedPassword.Verify (v : HashedPassword) (pass : Password) : Except GoErr Unit :=
  match bcryptCompareHashAndPassword v (goBytes pass) with
  | .error err => .error (.wrap (goErrMessage err) (.base .hashedPasswordNotMatch))
  | .ok _ => .ok ()

/-! ### Helper lemmas -/

theorem char_toNat_inj {c d : Char} (h : c.toNat = d.toNat) : c = d :=
  Char.eq_of_val_eq (UInt32.ext h)

theorem string_eq_of_data {v w : String} (h : v.data = w.data) : v = w := by
  cases v
  cases w
  exact congrArg String.mk h

theorem passwordCharctersClass_iff (c : Char) :
    passwordCharctersClass c = true ↔ (0x21 ≤ c.toNat ∧ c.toNat ≤ 0x7E) := by
  unfold passwordCharctersClass
  simp only [Bool.or_eq_true, Bool.and_eq_true, decide_eq_true_eq]
  omega

theorem charUTF8_ascii {c : Char} (h : c.toNat < 0x80) : charUTF8 c = [c.toNat] := by
  unfold charUTF8
  rw [if_pos h]

theorem charUTF8_ne_nil (c : Char) : charUTF8 c ≠ [] := by
  unfold charUTF8
  split_ifs <;> simp

theorem charUTF8_head_high {c : Char} (h : ¬ c.toNat < 0x80) :
    ∃ b t, charUTF8 c = b :: t ∧ 0x80 ≤ b := by
  unfold charUTF8
  rw [if_neg h]
  split_ifs with h1 h2
  · exact ⟨_, _, rfl, by omega⟩
  · exact ⟨_, _, rfl, by omega⟩
  · exact ⟨_, _, rfl, by omega⟩

theorem flatten_map_charUTF8_ascii :
    ∀ l : List Char, (∀ c ∈ l, c.toNat < 0x80) →
      (l.map charUTF8).flatten = l.map Char.toNat
  | [], _ => rfl
  | c :: cs, h => by
    simp only [List.map_cons, List.flatten_cons]
    rw [charUTF8_ascii (h c (List.mem_cons_self c cs)),
      flatten_map_charUTF8_ascii cs (fun d hd => h d (List.mem_cons_of_mem _ hd))]
    rfl

theorem flatten_map_charUTF8_inj (l : List Char) :
    ∀ l' : List Char, (∀ c ∈ l, c.toNat < 0x80) →
      (l'.map charUTF8).flatten = (l.map charUTF8).flatten → l' = l := by
  induction l with
  | nil =>
    intro l' _ heq
    cases l' with
    | nil => rfl
    | cons c' cs' =>
      simp only [List.map_cons, List.flatten_cons, List.map_nil, List.flatten_nil,
        List.append_eq_nil] at heq
      exact absurd heq.1 (charUTF8_ne_nil c')
  | cons c cs ih =>
    intro l' hascii heq
    have hc : c.toNat < 0x80 := hascii c (List.mem_cons_self c cs)
    cases l' with
    | nil =>
      rw [List.map_nil, List.flatten_nil, List.map_cons, List.flatten_cons,
        charUTF8_ascii hc] at heq
      exact absurd heq.symm (by simp)
    | cons c' cs' =>
      by_cases hc' : c'.toNat < 0x80
      · rw [List.map_cons, List.map_cons, List.flatten_cons, List.flatten_cons,
          charUTF8_ascii hc, charUTF8_ascii hc'] at heq
        simp only [List.cons_append, List.nil_append, List.cons.injEq] at heq
        rw [char_toNat_inj heq.1,
          ih cs' (fun d hd => hascii d (List.mem_cons_of_mem _ hd)) heq.2]
      · obtain ⟨b, t, hbt, hb⟩ := charUTF8_head_high hc'
        rw [List.map_cons, List.map_cons, List.flatten_cons, List.flatten_cons,
          charUTF8_ascii hc, hbt] at heq
        simp only [List.cons_append, List.nil_append, List.cons.injEq] at heq
        obtain ⟨hb1, _⟩ := heq
        omega

theorem goBytes_ascii {v : String} (h : ∀ c ∈ v.data, c.toNat < 0x80) :
    goBytes v = v.data.map Char.toNat :=
  flatten_map_charUTF8_ascii v.data h

theorem goBytes_length_ascii {v : String} (h : ∀ c ∈ v.data, c.toNat < 0x80) :
    (goBytes v).length = v.length := by
  rw [goBytes_ascii h, List.length_map]
  rfl

theorem goBytes_inj {v w : String} (h : ∀ c ∈ v.data, c.toNat < 0x80)
    (heq : goBytes w = goBytes v) : w = v :=
  string_eq_of_data (flatten_map_charUTF8_inj v.data w.data h heq)

theorem passwordCharctersMatchString_iff (w : String) :
    passwordCharctersMatchString w = true ↔
      (w ≠ "" ∧ ∀ c ∈ w.data, 0x21 ≤ c.toNat ∧ c.toNat ≤ 0x7E) := by
  unfold passwordCharctersMatchString
  simp only [Bool.and_eq_true, List.all_eq_true, Bool.not_eq_true',
    ← Bool.not_eq_true, String.isEmpty_iff, ne_eq]
  constructor
  · rintro ⟨h1, h2⟩
    exact ⟨h1, fun c hc => (passwordCharctersClass_iff c).mp (h2 c hc)⟩
  · rintro ⟨h1, h2⟩
    exact ⟨h1, fun c hc => (passwordCharctersClass_iff c).mpr (h2 c hc)⟩

theorem newPassword_ok_iff {v p : String} (h : NewPassword v = .ok p) :
    p = v ∧ PasswordMinLength ≤ v.length ∧ v.length ≤ PasswordMaxLength ∧
      passwordCharctersMatchString v = true ∧
      findStringHit alphaClass v = true ∧ findStringHit digitClass v = true ∧
      findStringHit punctClass v = true := by
  unfold NewPassword at h
  split_ifs at h with h1 h2 h3 h4 h5 h6 h7
  cases h
  simp only [Bool.not_eq_true'] at h4 h5 h6 h7
  exact ⟨rfl, Nat.le_of_not_lt h2, Nat.le_of_not_lt h3,
    Bool.of_not_eq_false h4, Bool.of_not_eq_false h5,
    Bool.of_not_eq_false h6, Bool.of_not_eq_false h7⟩

theorem newPassword_ok_range {v p : String} (h : NewPassword v = .ok p) :
    ∀ c ∈ v.data, 0x21 ≤ c.toNat ∧ c.toNat ≤ 0x7E := by
  have hm := (newPassword_ok_iff h).2.2.2.1
  exact ((passwordCharctersMatchString_iff v).mp hm).2

theorem newPassword_ok_ascii {v p : String} (h : NewPassword v = .ok p) :
    ∀ c ∈ v.data, c.toNat < 0x80 := by
  intro c hc
  have := newPassword_ok_range h c hc
  omega

theorem newPassword_ok_bytes_short {v p : String} (h : NewPassword v = .ok p) :
    ¬ 72 < (goBytes v).length := by
  rw [goBytes_length_ascii (newPassword_ok_ascii h)]
  have := (newPassword_ok_iff h).2.2.1
  unfold PasswordMaxLength at this
  omega

theorem hash_of_ok {v p : String} (h : NewPassword v = .ok p) (salt : Nat) :
    Password.Hash p salt = PasswordHashCost :: salt :: goBytes p := by
  obtain ⟨rfl, -⟩ := newPassword_ok_iff h
  unfold Password.Hash bcryptGenerateFromPassword
  rw [if_neg (newPassword_ok_bytes_short h)]

theorem verify_hash_self {v p : String} (h : NewPassword v = .ok p) (salt : Nat) :
    (Password.Hash p salt).Verify p = .ok () := by
  obtain ⟨rfl, -⟩ := newPassword_ok_iff h
  rw [hash_of_ok h salt]
  simp [HashedPassword.Verify, bcryptCompareHashAndPassword, bcryptGenerateFromPassword,
    newPassword_ok_bytes_short h]

theorem verify_hash_ne {v p : String} (h : NewPassword v = .ok p) (salt : Nat)
    {p2 : Password} (hne : p2 ≠ p) :
    ∃ msg, (Password.Hash p salt).Verify p2 =
      .error (.wrap msg (.base .hashedPasswordNotMatch)) := by
  obtain ⟨rfl, -⟩ := newPassword_ok_iff h
  rw [hash_of_ok h salt]
  have hgb : goBytes p2 ≠ goBytes p := fun hcontra =>
    hne (goBytes_inj (newPassword_ok_ascii h) hcontra)
  by_cases hlen : 72 < (goBytes p2).length
  · refine ⟨goErrMessage (.base .bcryptPasswordTooLong), ?_⟩
    simp [HashedPassword.Verify, bcryptCompareHashAndPassword,
      bcryptGenerateFromPassword, hlen]
  · refine ⟨goErrMessage (.base .bcryptMismatchedHashAndPassword), ?_⟩
    simp [HashedPassword.Verify, bcryptCompareHashAndPassword,
      bcryptGenerateFromPassword, hlen, hgb]

theorem goErr_is_wrap_base (msg : String) (e : DomainErr) :
    (GoErr.wrap msg (.base e)).is e = true := by
  simp [GoErr.is]

theorem findStringHit_eq_false_iff (cls : Char → Bool) (v : String) :
    findStringHit cls v = false ↔ ∀ c ∈ v.data, cls c = false := by
  unfold findStringHit
  simp [List.any_eq_false]

/-! ### Claim theorems -/

/-- C6: the Identifier validator `NewUserID` fails exactly on zero, with the
`userIDZero` sentinel, and returns every non-zero identifier unchanged. -/
theorem newUserID_spec (v : Nat) :
    (v = 0 → NewUserID v = .error (.base .userIDZero) ∧
      (GoErr.base .userIDZero).is .userIDZero = true)
  ∧ (v ≠ 0 → NewUserID v = .ok v) := by
  constructor
  · rintro rfl
    exact ⟨rfl, rfl⟩
  · intro h
    simp [NewUserID, h]

/-- C5: the DisplayName validator `NewUserName` fails exactly on the empty
string (`userNameEmpty`) or on more than 32 code points (`userNameTooLong`);
on success it returns the input unchanged. Length is the code-point count
(`String.length` counts `Char`s): a name of 17 two-byte code points has 34
bytes yet is accepted. -/
theorem newUserName_spec (s : String) :
    (s = "" → NewUserName s = .error (.withStack (.base .userNameEmpty)))
  ∧ (s ≠ "" → 32 < s.length →
      NewUserName s = .error (.withStack (.base .userNameTooLong)))
  ∧ (s ≠ "" → s.length ≤ 32 → NewUserName s = .ok s)
  ∧ s.length = s.data.length
  ∧ 32 < (goBytes (String.mk (List.replicate 17 (Char.ofNat 0xE9)))).length
  ∧ NewUserName (String.mk (List.replicate 17 (Char.ofNat 0xE9))) =
      .ok (String.mk (List.replicate 17 (Char.ofNat 0xE9))) := by
  refine ⟨?_, ?_, ?_, rfl, by decide, by decide⟩
  · rintro rfl
    rfl
  · intro h1 h2
    unfold NewUserName
    rw [if_neg h1, if_pos (show UserNameMaxLength < s.length from h2)]
  · intro h1 h2
    unfold NewUserName
    rw [if_neg h1, if_neg (show ¬ UserNameMaxLength < s.length from Nat.not_lt.mpr h2)]

/-- C7: the Role validator `NewUserRole` accepts exactly "user" and "admin",
returning the corresponding enumerated value; every other string fails with
the `userRoleInvalid` sentinel (wrapped with a stack annotation). -/
theorem newUserRole_spec (r : String) :
    (r = "user" → NewUserRole r = .ok RoleUser)
  ∧ (r = "admin" → NewUserRole r = .ok RoleAdmin)
  ∧ (r ≠ "user" → r ≠ "admin" →
      NewUserRole r = .error (.withStack (.base .userRoleInvalid)) ∧
      (GoErr.withStack (.base .userRoleInvalid)).is .userRoleInvalid = true) := by
  refine ⟨?_, ?_, ?_⟩
  · rintro rfl
    rfl
  · rintro rfl
    rfl
  · intro h1 h2
    unfold NewUserRole
    rw [if_neg (show ¬ r = RoleUser from h1), if_neg (show ¬ r = RoleAdmin from h2)]
    exact ⟨rfl, rfl⟩

/-- C9: the fresh-construction operation `NewUser` always succeeds, performs
no validation, and returns an aggregate whose id is the zero value and whose
other three fields are the arguments unchanged. -/
theorem newUser_spec (name : UserName) (hashedPassword : HashedPassword) (role : UserRole) :
    NewUser name hashedPassword role =
      .ok { id := 0, name := name, hashedPassword := hashedPassword, role := role } :=
  rfl

/-- C2: `NewPassword` runs empty, too-short, too-long, then composition, in
that order, the first violated check fixing the error: "" gives
`passwordEmpty`; non-empty under 8 code points gives `passwordTooShort`;
over 16 gives `passwordTooLong`; in-range input violating the character-class
or must-include rules gives `passwordDoesNotFollowRule`; "Abcdef1!" passes
all four checks and is returned unchanged. -/
theorem newPassword_order_spec :
    NewPassword "" = .error (.withStack (.base .passwordEmpty))
  ∧ (∀ v : String, v ≠ "" → v.length < 8 →
      NewPassword v = .error (.withStack (.base .passwordTooShort)))
  ∧ (∀ v : String, 16 < v.length →
      NewPassword v = .error (.withStack (.base .passwordTooLong)))
  ∧ (∀ v : String, 8 ≤ v.length → v.length ≤ 16 →
      (passwordCharctersMatchString v = false ∨ findStringHit alphaClass v = false ∨
        findStringHit digitClass v = false ∨ findStringHit punctClass v = false) →
      NewPassword v = .error (.withStack (.base .passwordDoesNotFollowRule)))
  ∧ NewPassword "Abcdef1!" = .ok "Abcdef1!" := by
  refine ⟨by decide, ?_, ?_, ?_, by decide⟩
  · intro v h1 h2
    unfold NewPassword
    rw [if_neg h1, if_pos (show v.length < PasswordMinLength from h2)]
  · intro v h2
    have h1 : v ≠ "" := by
      intro he
      subst he
      exact absurd h2 (by decide)
    have h8 : (8 : Nat) ≤ v.length := by omega
    unfold NewPassword
    rw [if_neg h1, if_neg (show ¬ v.length < PasswordMinLength from Nat.not_lt.mpr h8),
      if_pos (show PasswordMaxLength < v.length from h2)]
  · intro v h8 h16 hpol
    have h1 : v ≠ "" := by
      intro he
      subst he
      exact absurd h8 (by decide)
    unfold NewPassword
    rw [if_neg h1, if_neg (show ¬ v.length < PasswordMinLength from Nat.not_lt.mpr h8),
      if_neg (show ¬ PasswordMaxLength < v.length from Nat.not_lt.mpr h16)]
    rcases hpol with hm | hm | hm | hm <;> simp [hm, ite_self]

/-- C1: for every plaintext accepted by `NewPassword`, hashing then verifying
the same plaintext succeeds, and verifying any different plaintext fails with
an error that `errors.Is`-matches the `hashedPasswordNotMatch` sentinel
(bcrypt itself is modelled from the spec as a salted transform injective in
keys within its 72-byte limit). -/
theorem hash_then_verify_spec (s p : String) (h : NewPassword s = .ok p) (salt : Nat) :
    (Password.Hash p salt).Verify p = .ok ()
  ∧ ∀ p2 : Password, p2 ≠ p → ∃ msg,
      (Password.Hash p salt).Verify p2 =
        .error (.wrap msg (.base .hashedPasswordNotMatch)) ∧
      (GoErr.wrap msg (.base .hashedPasswordNotMatch)).is .hashedPasswordNotMatch = true := by
  refine ⟨verify_hash_self h salt, fun p2 hne => ?_⟩
  obtain ⟨msg, hmsg⟩ := verify_hash_ne h salt hne
  exact ⟨msg, hmsg, goErr_is_wrap_base msg _⟩

/-- Witness for C1 at the accepted password "Abcdef1!" and salt 0. -/
theorem hash_then_verify_spec_witness :
    NewPassword "Abcdef1!" = .ok "Abcdef1!" ∧
    ((Password.Hash "Abcdef1!" 0).Verify "Abcdef1!" = .ok ()
      ∧ ∀ p2 : Password, p2 ≠ "Abcdef1!" → ∃ msg,
          (Password.Hash "Abcdef1!" 0).Verify p2 =
            .error (.wrap msg (.base .hashedPasswordNotMatch)) ∧
          (GoErr.wrap msg (.base .hashedPasswordNotMatch)).is .hashedPasswordNotMatch = true) :=
  ⟨by decide, hash_then_verify_spec "Abcdef1!" "Abcdef1!" (by decide) 0⟩

/-- C8: hashing is salt-randomized: for an accepted plaintext, two
invocations of `Password.Hash` with the distinct salts the library draws
produce different hashes, and verifying the plaintext against either hash
succeeds. -/
theorem hash_salted_nondeterminism (s p : String) (h : NewPassword s = .ok p)
    (salt1 salt2 : Nat) (hne : salt1 ≠ salt2) :
    Password.Hash p salt1 ≠ Password.Hash p salt2
  ∧ (Password.Hash p salt1).Verify p = .ok ()
  ∧ (Password.Hash p salt2).Verify p = .ok () := by
  refine ⟨?_, verify_hash_self h salt1, verify_hash_self h salt2⟩
  rw [hash_of_ok h salt1, hash_of_ok h salt2]
  intro hcontra
  simp only [List.cons.injEq, true_and] at hcontra
  exact hne hcontra.1

/-- Witness for C8 at the accepted password "Abcdef1!" and salts 0 and 1. -/
theorem hash_salted_nondeterminism_witness :
    NewPassword "Abcdef1!" = .ok "Abcdef1!" ∧ (0 : Nat) ≠ 1 ∧
    (Password.Hash "Abcdef1!" 0 ≠ Password.Hash "Abcdef1!" 1
      ∧ (Password.Hash "Abcdef1!" 0).Verify "Abcdef1!" = .ok ()
      ∧ (Password.Hash "Abcdef1!" 1).Verify "Abcdef1!" = .ok ()) :=
  ⟨by decide, by decide,
    hash_salted_nondeterminism "Abcdef1!" "Abcdef1!" (by decide) 0 1 (by decide)⟩

/-- C10: every password accepted by `NewPassword` consists solely of code
points in 0x21-0x7E, so its UTF-8 byte count equals its code-point count,
lies between 8 and 16, and in particular stays under bcrypt's 72-byte
limit; the accepted value is the input unchanged. -/
theorem password_ascii_invariant (v p : String) (h : NewPassword v = .ok p) :
    p = v
  ∧ (∀ c ∈ v.data, 0x21 ≤ c.toNat ∧ c.toNat ≤ 0x7E)
  ∧ (goBytes v).length = v.length
  ∧ 8 ≤ v.length ∧ v.length ≤ 16
  ∧ (goBytes v).length ≤ 72 := by
  obtain ⟨hp, hmin, hmax, -⟩ := newPassword_ok_iff h
  have hr := newPassword_ok_range h
  have hlen := goBytes_length_ascii (newPassword_ok_ascii h)
  have hmin8 : 8 ≤ v.length := hmin
  have hmax16 : v.length ≤ 16 := hmax
  exact ⟨hp, hr, hlen, hmin8, hmax16, by omega⟩

/-- Witness for C10 at the accepted password "Abcdef1!". -/
theorem password_ascii_invariant_witness :
    NewPassword "Abcdef1!" = .ok "Abcdef1!" ∧
    (("Abcdef1!" : String) = "Abcdef1!"
      ∧ (∀ c ∈ ("Abcdef1!" : String).data, 0x21 ≤ c.toNat ∧ c.toNat ≤ 0x7E)
      ∧ (goBytes "Abcdef1!").length = ("Abcdef1!" : String).length
      ∧ 8 ≤ ("Abcdef1!" : String).length ∧ ("Abcdef1!" : String).length ≤ 16
      ∧ (goBytes "Abcdef1!").length ≤ 72) :=
  ⟨by decide, password_ascii_invariant "Abcdef1!" "Abcdef1!" (by decide)⟩

/-- C3: for strings of 8 to 16 code points, `NewPassword` fails with
`passwordDoesNotFollowRule` exactly when some code point falls outside
0x21-0x7E, or no code point is alphabetic, or none is a digit, or none is
punctuation; and the `PasswordCharcters` class match accepts exactly the
non-empty strings over code points 0x21-0x7E. -/
theorem newPassword_policy_iff (v : String) (h8 : 8 ≤ v.length) (h16 : v.length ≤ 16) :
    (NewPassword v = .error (.withStack (.base .passwordDoesNotFollowRule)) ↔
      ((∃ c ∈ v.data, ¬(0x21 ≤ c.toNat ∧ c.toNat ≤ 0x7E)) ∨
        (∀ c ∈ v.data, alphaClass c = false) ∨
        (∀ c ∈ v.data, digitClass c = false) ∨
        (∀ c ∈ v.data, punctClass c = false)))
  ∧ (∀ w : String, passwordCharctersMatchString w = true ↔
      (w ≠ "" ∧ ∀ c ∈ w.data, 0x21 ≤ c.toNat ∧ c.toNat ≤ 0x7E)) := by
  refine ⟨?_, fun w => passwordCharctersMatchString_iff w⟩
  have h1 : v ≠ "" := by
    intro he
    subst he
    exact absurd h8 (by decide)
  have hmiff : passwordCharctersMatchString v = false ↔
      ∃ c ∈ v.data, ¬(0x21 ≤ c.toNat ∧ c.toNat ≤ 0x7E) := by
    rw [← Bool.not_eq_true, passwordCharctersMatchString_iff]
    push_neg
    simp [h1]
  unfold NewPassword
  rw [if_neg h1, if_neg (show ¬ v.length < PasswordMinLength from Nat.not_lt.mpr h8),
    if_neg (show ¬ PasswordMaxLength < v.length from Nat.not_lt.mpr h16)]
  rw [← hmiff, ← findStringHit_eq_false_iff alphaClass,
    ← findStringHit_eq_false_iff digitClass, ← findStringHit_eq_false_iff punctClass]
  cases hm : passwordCharctersMatchString v <;>
    cases ha : findStringHit alphaClass v <;>
    cases hd : findStringHit digitClass v <;>
    cases hp : findStringHit punctClass v <;>
    simp

/-- Witness for C3 at "aaaaaaaa" (8 code points, letters only, so the
policy check fails for want of a digit). -/
theorem newPassword_policy_iff_witness :
    (8 ≤ ("aaaaaaaa" : String).length ∧ ("aaaaaaaa" : String).length ≤ 16) ∧
    ((NewPassword "aaaaaaaa" = .error (.withStack (.base .passwordDoesNotFollowRule)) ↔
      ((∃ c ∈ ("aaaaaaaa" : String).data, ¬(0x21 ≤ c.toNat ∧ c.toNat ≤ 0x7E)) ∨
        (∀ c ∈ ("aaaaaaaa" : String).data, alphaClass c = false) ∨
        (∀ c ∈ ("aaaaaaaa" : String).data, digitClass c = false) ∨
        (∀ c ∈ ("aaaaaaaa" : String).data, punctClass c = false)))
    ∧ (∀ w : String, passwordCharctersMatchString w = true ↔
        (w ≠ "" ∧ ∀ c ∈ w.data, 0x21 ≤ c.toNat ∧ c.toNat ≤ 0x7E))) :=
  ⟨⟨by decide, by decide⟩, newPassword_policy_iff "aaaaaaaa" (by decide) (by decide)⟩

/-- C4: `NewUserFromSource` validates id, name, hashed password, role in that
fixed order and short-circuits on the first failure, wrapping it with a stack
annotation under which the originating sentinel still answers `errors.Is`:
a zero id fails with `userIDZero` whatever the other fields are, an empty
name (with non-zero id) fails with `userNameEmpty` whatever the later fields
are, and so on down the chain; when all four validators succeed the aggregate
carries all four validated fields, identifier included. -/
theorem newUserFromSource_spec (id : Nat) (name hashedPassword role : String)
    (i : UserID) (n : UserName) (hp : HashedPassword) (r : UserRole)
    (hid : NewUserID id = .ok i) (hname : NewUserName name = .ok n)
    (hhp : NewHashedPassword hashedPassword = .ok hp)
    (hrole : NewUserRole role = .ok r) :
    NewUserFromSource id name hashedPassword role =
      .ok { id := i, name := n, hashedPassword := hp, role := r }
  ∧ (∀ name2 hp2 role2 : String, NewUserFromSource 0 name2 hp2 role2 =
      .error (.withStack (.base .userIDZero)))
  ∧ (GoErr.withStack (.base .userIDZero)).is .userIDZero = true
  ∧ (∀ id2 : Nat, ∀ hp2 role2 : String, id2 ≠ 0 →
      NewUserFromSource id2 "" hp2 role2 =
        .error (.withStack (.withStack (.base .userNameEmpty))))
  ∧ (GoErr.withStack (.withStack (.base .userNameEmpty))).is .userNameEmpty = true
  ∧ (∀ id3 : Nat, ∀ role3 : String, id3 ≠ 0 →
      NewUserFromSource id3 "alice" "" role3 =
        .error (.withStack (.withStack (.base .hashedPasswordEmpty))))
  ∧ (∀ id4 : Nat, ∀ role4 : String, id4 ≠ 0 → role4 ≠ "user" → role4 ≠ "admin" →
      NewUserFromSource id4 "alice" "x" role4 =
        .error (.withStack (.withStack (.base .userRoleInvalid)))) := by
  refine ⟨?_, ?_, rfl, ?_, rfl, ?_, ?_⟩
  · simp only [NewUserFromSource, hid, hname, hhp, hrole]
  · intro name2 hp2 role2
    simp [NewUserFromSource, NewUserID]
  · intro id2 hp2 role2 hne
    simp [NewUserFromSource, NewUserID, hne, NewUserName]
  · intro id3 role3 hne
    have hal : NewUserName "alice" = .ok "alice" := by decide
    simp [NewUserFromSource, NewUserID, hne, hal, NewHashedPassword]
  · intro id4 role4 hne hu ha
    have hal : NewUserName "alice" = .ok "alice" := by decide
    have hx : NewHashedPassword "x" = .ok (goBytes "x") := by decide
    simp [NewUserFromSource, NewUserID, hne, hal, hx, NewUserRole, RoleUser, RoleAdmin,
      hu, ha]

/-- Witness for C4 at id 7, name "alice", hashed credential "x", role
"user". -/
theorem newUserFromSource_spec_witness :
    (NewUserID 7 = .ok 7 ∧ NewUserName "alice" = .ok "alice" ∧
      NewHashedPassword "x" = .ok (goBytes "x") ∧ NewUserRole "user" = .ok RoleUser) ∧
    (NewUserFromSource 7 "alice" "x" "user" =
        .ok { id := 7, name := "alice", hashedPassword := goBytes "x", role := RoleUser }
      ∧ (∀ name2 hp2 role2 : String, NewUserFromSource 0 name2 hp2 role2 =
          .error (.withStack (.base .userIDZero)))
      ∧ (GoErr.withStack (.base .userIDZero)).is .userIDZero = true
      ∧ (∀ id2 : Nat, ∀ hp2 role2 : String, id2 ≠ 0 →
          NewUserFromSource id2 "" hp2 role2 =
            .error (.withStack (.withStack (.base .userNameEmpty))))
      ∧ (GoErr.withStack (.withStack (.base .userNameEmpty))).is .userNameEmpty = true
      ∧ (∀ id3 : Nat, ∀ role3 : String, id3 ≠ 0 →
          NewUserFromSource id3 "alice" "" role3 =
            .error (.withStack (.withStack (.base .hashedPasswordEmpty))))
      ∧ (∀ id4 : Nat, ∀ role4 : String, id4 ≠ 0 → role4 ≠ "user" → role4 ≠ "admin" →
          NewUserFromSource id4 "alice" "x" role4 =
            .error (.withStack (.withStack (.base .userRoleInvalid))))) :=
  ⟨⟨by decide, by decide, by decide, by decide⟩,
    newUserFromSource_spec 7 "alice" "x" "user" 7 "alice" (goBytes "x") RoleUser
      (by decide) (by decide) (by decide) (by decide)⟩

end Domain
